import Mathlib

/-!
Verification of the `app_model` Application orchestrator
(`src/app_model/_app.py`) against its natural-language specification.

The embedding models:
* the process-wide name → instance mapping (`Application._instances`),
* the per-application state: context, the three registries
  (commands / menus / keybindings), and the disposer stack,
* `Application.__init__`, `get_or_create`, `get_app`, `destroy`,
  `dispose`, `register_action`, `register_actions`.

Undo callbacks (`DisposeCallable`) are deep-embedded as the inductive
type `UndoCb` together with the interpreter `runUndo`; a callback that
raises an exception is the constructor `UndoCb.raises`.

The registries module (`CommandsRegistry`, `MenusRegistry`,
`KeyBindingsRegistry` and the free function `register_action` from
`app_model.registries`) is not part of the provided sources; the parts
of it that the claims need are modelled from the specification and are
marked `Modelled from the spec:` in their doc comments.
-/

namespace AppModel

instance {ε α : Type} [DecidableEq ε] [DecidableEq α] :
    DecidableEq (Except ε α)
  | .error x, .error y =>
      if h : x = y then .isTrue (by rw [h])
      else .isFalse (by intro hc; cases hc; exact h rfl)
  | .error _, .ok _ => .isFalse (by intro hc; cases hc)
  | .ok _, .error _ => .isFalse (by intro hc; cases hc)
  | .ok x, .ok y =>
      if h : x = y then .isTrue (by rw [h])
      else .isFalse (by intro hc; cases hc; exact h rfl)

/-- `str.startswith(pre)` embedded over the character sequences (the
library `String.startsWith` is defined by well-founded recursion on
byte positions and does not evaluate inside the kernel). -/
def strStartsWith (s pre : String) : Bool :=
  pre.data.isPrefixOf s.data

/-- A value stored in a `Context` (the spec allows booleans, numbers,
strings). -/
inductive CtxVal where
  | b (v : Bool)
  | s (v : String)
  | i (v : Int)
deriving DecidableEq, Repr

/-- A `Context`: mapping from string key to value, embedded as an
association list (first binding for a key wins on lookup, as in a
Python mapping kept duplicate-free by `ctxSet`). -/
def Ctx : Type := List (String × CtxVal)

instance : DecidableEq Ctx := by unfold Ctx; infer_instance

instance : Repr Ctx := by unfold Ctx; infer_instance

/-- `context[key] = value`: replace the binding in place if the key is
present, otherwise append it (Python `dict.__setitem__` semantics). -/
def ctxSet (c : Ctx) (k : String) (v : CtxVal) : Ctx :=
  match c with
  | [] => [(k, v)]
  | (k2, v2) :: rest =>
      if k2 = k then (k, v) :: rest else (k2, v2) :: ctxSet rest k v

/-- `context.get(key)`. -/
def ctxGet (c : Ctx) (k : String) : Option CtxVal :=
  match c with
  | [] => none
  | (k2, v2) :: rest => if k2 = k then some v2 else ctxGet rest k

/-- `context.update(other)`: set every binding of `other`, in order
(Python `MutableMapping.update` semantics). -/
def ctxUpdate (c : Ctx) (other : Ctx) : Ctx :=
  other.foldl (fun acc kv => ctxSet acc kv.1 kv.2) c

/-- A menu placement rule of an `Action`
(`app_model.types.MenuRule`): the id of the menu to contribute to,
with optional group, in-group order, and "when" expression source. -/
structure MenuRule where
  menuId : String
  group : Option String := none
  order : Option Int := none
  whenExpr : Option String := none
deriving DecidableEq, Repr

/-- A keybinding rule of an `Action`
(`app_model.types.KeyBindingRule`): the primary key chord and an
optional "when" expression source. -/
structure KeyBindingRule where
  primary : String
  whenExpr : Option String := none
deriving DecidableEq, Repr

/-- Modelled from the spec: the syntactic well-formedness check of
`Expression.parse` over a "when" clause source (the expressions module
is not among the provided sources).  Parsing "fails with a `ParseError`
on malformed syntax (unbalanced parens, unknown operator, empty
input)"; this model rejects the two structurally checkable failure
modes: empty input and unbalanced parentheses (tracked by the
open-paren depth `d`). -/
def balancedFrom (d : Nat) : List Char → Bool
  | [] => d = 0
  | c :: cs =>
      if c = '(' then balancedFrom (d + 1) cs
      else if c = ')' then
        match d with
        | 0 => false
        | d2 + 1 => balancedFrom d2 cs
      else balancedFrom d cs

/-- Modelled from the spec: whether a "when" clause source parses
(see `balancedFrom`). -/
def parseOk (src : String) : Bool :=
  !src.data.isEmpty && balancedFrom 0 src.data

/-- Whether an optional "when" clause fails to parse (an absent clause
is fine). -/
def badWhen : Option String → Bool
  | none => false
  | some src => !parseOk src

/-- `app_model.types.Action`: a command id together with zero-or-more
menu rules and zero-or-more keybinding rules (the callable
implementation and the purely-descriptive metadata play no role in the
registration bookkeeping verified here). -/
structure Action where
  id : String
  menus : List MenuRule := []
  keybindings : List KeyBindingRule := []
deriving DecidableEq, Repr

/-- An entry of the menus registry: a menu item contributed to menu
`menuId` on behalf of command `commandId`, carrying the rule's group,
order and "when" expression source. -/
structure MenuEntry where
  menuId : String
  commandId : String
  group : Option String := none
  order : Option Int := none
  whenExpr : Option String := none
deriving DecidableEq, Repr

/-- An entry of the keybindings registry: a key chord bound to a
command id, carrying the rule's "when" expression source. -/
structure KBEntry where
  primary : String
  commandId : String
  whenExpr : Option String := none
deriving DecidableEq, Repr

/-- The observable state of the three registries owned by one
`Application`: registered command ids, menu items and keybinding
entries, each in registration order (capturing both the id-set and the
ordering the spec talks about). -/
structure RegState where
  commands : List String
  menus : List MenuEntry
  keybindings : List KBEntry
deriving DecidableEq, Repr

/-- The empty registries of a freshly constructed `Application`. -/
def RegState.empty : RegState := ⟨[], [], []⟩

/-- Remove the last occurrence of `a` from `l` (no-op when absent). -/
def eraseLastOcc {α : Type} [DecidableEq α] (l : List α) (a : α) : List α :=
  (l.reverse.erase a).reverse

/-- Remove a previously appended batch `items` from `l`: each item is
removed at its last occurrence, last appended item first (the undo of
`l ++ items`). -/
def removeItems {α : Type} [DecidableEq α] (l items : List α) : List α :=
  items.reverse.foldl (fun acc a => eraseLastOcc acc a) l

/-- A deep-embedded `DisposeCallable`: the undo callbacks produced by
registration, a callback that raises an exception, the callback that
does nothing, and sequential composition. -/
inductive UndoCb where
  | removeCmd (id : String)
  | removeMenus (items : List MenuEntry)
  | removeKbs (items : List KBEntry)
  | raises
  | noop
  | andThen (u1 u2 : UndoCb)
deriving DecidableEq, Repr

/-- The composite undo callback running `cbs` in order. -/
def UndoCb.comp (cbs : List UndoCb) : UndoCb :=
  cbs.foldr .andThen .noop

/-- Run one undo callback on the registries. The returned `Bool` is
`true` when the callback raised an exception; the returned state keeps
every mutation made before the raise (a raise inside a sequential
composition aborts the rest of the composition and propagates). -/
def runUndo : UndoCb → RegState → RegState × Bool
  | .removeCmd id, s => ({ s with commands := eraseLastOcc s.commands id }, false)
  | .removeMenus items, s => ({ s with menus := removeItems s.menus items }, false)
  | .removeKbs items, s => ({ s with keybindings := removeItems s.keybindings items }, false)
  | .raises, s => (s, true)
  | .noop, s => (s, false)
  | .andThen u1 u2, s =>
      match runUndo u1 s with
      | (s2, true) => (s2, true)
      | (s2, false) => runUndo u2 s2

/-- Run a list of undo callbacks in order, stopping at (and reporting)
the first raise. -/
def runUndoSeq : List UndoCb → RegState → RegState × Bool
  | [], s => (s, false)
  | c :: cs, s =>
      match runUndo c s with
      | (s2, true) => (s2, true)
      | (s2, false) => runUndoSeq cs s2

/-- Run a list of undo callbacks in order, suppressing exceptions per
callback (`contextlib.suppress(Exception)`) so every callback runs. -/
def runSuppressed : List UndoCb → RegState → RegState
  | [], s => s
  | c :: cs, s => runSuppressed cs (runUndo c s).1

/-- Errors that registration can surface: `DuplicateIdError` on an
already-registered command id, `ParseError` on a malformed "when"
clause (surfaced at registration time, per the spec's error-handling
design). -/
inductive RegErr where
  | duplicateId (id : String)
  | parseError (src : String)
deriving DecidableEq, Repr

/-- Modelled from the spec: `CommandsRegistry.register` (the
`CommandsRegistry` class is not among the provided sources).  Fails
with `DuplicateIdError` if the id is already registered, otherwise
records the entry and returns an undo removing exactly this entry.  A
raised error leaves the registry state as it was (the returned state
accompanies the error so that partial mutation would be observable). -/
def registerCommand (id : String) (s : RegState) :
    Except (RegErr × RegState) (RegState × UndoCb) :=
  if id ∈ s.commands then .error (.duplicateId id, s)
  else .ok ({ s with commands := s.commands ++ [id] }, .removeCmd id)

/-- Modelled from the spec: `MenusRegistry.append_menu_items` (the
`MenusRegistry` class is not among the provided sources).  Each item's
"when" clause is validated first — a malformed clause fails with
`ParseError` ("surfaced at registration time so bad 'when' clauses
fail fast"), before this registry is mutated.  On success the items
are appended in order and the returned undo removes exactly the
appended items. -/
def appendMenuItems (items : List MenuEntry) (s : RegState) :
    Except (RegErr × RegState) (RegState × UndoCb) :=
  match items.find? (fun it => badWhen it.whenExpr) with
  | some it => .error (.parseError (it.whenExpr.getD ""), s)
  | none => .ok ({ s with menus := s.menus ++ items }, .removeMenus items)

/-- Modelled from the spec: `KeyBindingsRegistry.register` for all of
an action's keybinding rules (the `KeyBindingsRegistry` class is not
among the provided sources).  Each rule's "when" clause is validated
first — a malformed clause fails with `ParseError`, before this
registry is mutated.  On success the entries are appended in order
and the returned undo removes exactly the appended entries. -/
def registerKeybindings (items : List KBEntry) (s : RegState) :
    Except (RegErr × RegState) (RegState × UndoCb) :=
  match items.find? (fun it => badWhen it.whenExpr) with
  | some it => .error (.parseError (it.whenExpr.getD ""), s)
  | none =>
      .ok ({ s with keybindings := s.keybindings ++ items },
        .removeKbs items)

/-- The menu items an action contributes (one per `MenuRule`). -/
def Action.menuEntries (a : Action) : List MenuEntry :=
  a.menus.map fun r => ⟨r.menuId, a.id, r.group, r.order, r.whenExpr⟩

/-- The keybinding entries an action contributes (one per
`KeyBindingRule`). -/
def Action.kbEntries (a : Action) : List KBEntry :=
  a.keybindings.map fun r => ⟨r.primary, a.id, r.whenExpr⟩

/-- Modelled from the spec: the free function
`app_model.registries.register_action` (not among the provided
sources), acting on the three registries.  "decomposes the Action into
a Command Registry entry, zero-or-more Menu Registry entries,
zero-or-more Keybinding Registry entries; registers all three,
aggregates their undo callbacks into one composite undo, and on any
partial-registration failure rolls back everything already registered
(all-or-nothing semantics)."  The command registration can fail with
`DuplicateIdError` (before anything is registered); the menu and
keybinding steps can fail with `ParseError` on a malformed "when"
clause, after earlier steps have already mutated their registries —
in that case the undos collected so far are replayed, most recent
first, before the error propagates. -/
def registerActionRegs (a : Action) (s : RegState) :
    Except (RegErr × RegState) (RegState × UndoCb) :=
  match registerCommand a.id s with
  | .error (e, sErr) => .error (e, sErr)
  | .ok (s1, u1) =>
      match appendMenuItems a.menuEntries s1 with
      | .error (e, sErr) => .error (e, (runUndoSeq [u1] sErr).1)
      | .ok (s2, u2) =>
          match registerKeybindings a.kbEntries s2 with
          | .error (e, sErr) => .error (e, (runUndoSeq [u2, u1] sErr).1)
          | .ok (s3, u3) => .ok (s3, .comp [u1, u2, u3])

/-- How `sys.platform` / `os.name` look on the host: the inputs of the
OS-flag inspection at `Application.__init__`. -/
structure Platform where
  sysPlatform : String
  osName : String
deriving DecidableEq, Repr

/-- One `Application` instance: its name, context, registries and the
disposer stack `_disposers`; `appId` stands for Python object identity
(two applications are "the same instance" iff their `appId`s agree). -/
structure App where
  appId : Nat
  name : String
  ctx : Ctx
  regs : RegState
  disposers : List (String × UndoCb)
deriving DecidableEq, Repr

/-- An entry of the process-wide `Application._instances` mapping:
either a fully constructed application, or the partially constructed
`self` left behind when `__init__` raised `TypeError` after having
already recorded the name (only `_name` was set on it). -/
inductive Inst where
  | ok (a : App)
  | broken (name : String)
deriving DecidableEq, Repr

/-- Process-wide state: the `Application._instances` mapping (an
insertion-ordered dict, embedded as an association list without
duplicate keys), the names of the injection stores created via
`injection_store_class.create(name)`, and a counter supplying fresh
object identities. -/
structure Global where
  instances : List (String × Inst)
  stores : List String
  nextId : Nat
deriving DecidableEq, Repr

/-- `name in Application._instances` / `_instances[name]`. -/
def lookupInst (g : Global) (name : String) : Option Inst :=
  match g.instances.find? (fun kv => kv.1 = name) with
  | some kv => some kv.2
  | none => none

/-- `Application._instances.pop(name)`: drop the binding for `name`. -/
def removeInst (l : List (String × Inst)) (name : String) :
    List (String × Inst) :=
  l.filter (fun kv => kv.1 ≠ name)

/-- The `context` argument of `Application.__init__`: `None`, a
`Context`, some other `MutableMapping`, or anything else (`invalid`,
e.g. an integer).  A `Context` is itself a `MutableMapping`, so both
carry their bindings. -/
inductive CtxArg where
  | noCtx
  | ctx (c : Ctx)
  | mapping (m : Ctx)
  | invalid
deriving DecidableEq, Repr

/-- The errors `Application.__init__` can raise. -/
inductive InitError where
  | duplicateName
  | typeError
deriving DecidableEq, Repr

namespace Application

/-- `Application.__init__` (`_app.py` lines 69-113).  The result pairs
the process-wide state after the call with either the constructed
application or the raised error, mirroring the statement order of the
source:

1. `self._name = name`;
2. raise `ValueError` if `name` is already in `_instances` (the
   process-wide state is untouched in that case);
3. `Application._instances[name] = self` — the name is recorded
   *before* the context argument is validated;
4. context resolution: `None` becomes a fresh `Context`, a
   `MutableMapping` (hence also a `Context`) is wrapped into a
   `Context` with the same bindings, and anything else raises
   `TypeError` — leaving the partially constructed `self` behind in
   `_instances`;
5. `self._context.update(app_model_context())` (the contents of
   `app_model_context()`, which lives outside the provided sources,
   are passed in as the parameter `amc`);
6. the OS flags `is_linux` / `is_mac` / `is_windows` are written into
   the context from `sys.platform` / `os.name`;
7. `injection_store_class.create(name)` registers an injection store
   under `name`;
8. the three registries are created empty and `self._disposers = []`. -/
def init (name : String) (ctxArg : CtxArg) (plat : Platform)
    (amc : Ctx) (g : Global) : Global × Except InitError App :=
  if (lookupInst g name).isSome then (g, .error .duplicateName)
  else
    match ctxArg with
    | .invalid =>
        ({ g with instances := g.instances ++ [(name, .broken name)] },
         .error .typeError)
    | _ =>
        let ctx0 : Ctx :=
          match ctxArg with
          | .noCtx => []
          | .ctx c => c
          | .mapping m => m
          | .invalid => []
        let ctx1 := ctxUpdate ctx0 amc
        let ctx2 := ctxSet ctx1 "is_linux" (.b (strStartsWith plat.sysPlatform "linux"))
        let ctx3 := ctxSet ctx2 "is_mac" (.b (plat.sysPlatform == "darwin"))
        let ctx4 := ctxSet ctx3 "is_windows" (.b (plat.osName == "nt"))
        let app : App :=
          { appId := g.nextId, name := name, ctx := ctx4,
            regs := RegState.empty, disposers := [] }
        ({ instances := g.instances ++ [(name, .ok app)],
           stores := g.stores ++ [name],
           nextId := g.nextId + 1 },
         .ok app)

/-- `Application.get_or_create` (`_app.py` lines 149-152): return
`_instances[name]` when present, otherwise `cls(name)` (constructed
with all keyword arguments at their defaults, in particular
`context=None`). -/
def get_or_create (name : String) (plat : Platform) (amc : Ctx)
    (g : Global) : Global × Except InitError Inst :=
  match lookupInst g name with
  | some inst => (g, .ok inst)
  | none =>
      let (g2, r) := init name .noCtx plat amc g
      (g2, r.map .ok)

/-- `Application.get_app` (`_app.py` lines 154-157). -/
def get_app (name : String) (g : Global) : Option Inst :=
  lookupInst g name

/-- `Application.dispose` (`_app.py` lines 188-195):
`while self._disposers: with contextlib.suppress(Exception):
self._disposers.pop()[1]()` — pop the most recently tracked undo
callback, run it with exceptions suppressed, repeat until the stack is
empty. -/
def disposeLoop (ds : List (String × UndoCb)) (s : RegState) : RegState :=
  match h : ds.getLast? with
  | none => s
  | some (_, cb) =>
      disposeLoop ds.dropLast (runUndo cb s).1
termination_by ds.length
decreasing_by
  cases ds with
  | nil => simp at h
  | cons a l => simp [List.length_dropLast_cons, Nat.lt_succ_iff]

/-- `Application.dispose` at the application level: run the disposer
loop and leave the (emptied) disposer stack behind. -/
def dispose (app : App) : App :=
  { app with regs := disposeLoop app.disposers app.regs, disposers := [] }

/-- `Application.destroy` (`_app.py` lines 159-178): a no-op when
`name` is unknown, otherwise pop the instance, `dispose()` it, destroy
its injection store, and emit `destroyed` with the app's name.  The
result records the new process-wide state, the emitted `destroyed`
notifications, and the final state of the popped instance. -/
def destroy (name : String) (g : Global) :
    Global × List String × Option Inst :=
  match lookupInst g name with
  | none => (g, [], none)
  | some inst =>
      let g2 : Global := { g with instances := removeInst g.instances name }
      match inst with
      | .ok app =>
          let disposed := dispose app
          ({ g2 with stores := g2.stores.erase name },
           [app.name], some (.ok disposed))
      | .broken n =>
          -- a partially constructed instance has no `_disposers`;
          -- `app.dispose()` on it raises before reaching the store
          -- teardown and the signal emission
          (g2, [], some (.broken n))

/-- `Application.register_action` (`_app.py` lines 197-215), i.e.
`register_action(self, id_or_action=action)` from the registries
module: register into the three registries and track the composite
undo on `self._disposers` under the action's id, returning it. -/
def register_action (a : Action) (app : App) :
    Except (RegErr × App) (App × UndoCb) :=
  match registerActionRegs a app.regs with
  | .error (e, s2) => .error (e, { app with regs := s2 })
  | .ok (s2, u) =>
      let app2 : App :=
        { app with regs := s2, disposers := app.disposers ++ [(a.id, u)] }
      .ok (app2, u)

/-- The list comprehension of `Application.register_actions`
(`_app.py` line 231): register each action in order, collecting the
per-action undos; an error propagates with the state at the time of
the raise. -/
def registerActionsGo (acts : List Action) (app : App)
    (ds : List UndoCb) : Except (RegErr × App) (App × List UndoCb) :=
  match acts with
  | [] => .ok (app, ds)
  | a :: rest =>
      match register_action a app with
      | .error e => .error e
      | .ok (app2, u) => registerActionsGo rest app2 (ds ++ [u])

/-- `Application.register_actions` (`_app.py` lines 217-237): register
every action of the iterable in order; the returned undo pops and runs
the collected per-action undos last-registered-first (`while d:
d.pop()()`), which is the sequential composition of the reversed
list. -/
def register_actions (acts : List Action) (app : App) :
    Except (RegErr × App) (App × UndoCb) :=
  match registerActionsGo acts app [] with
  | .error e => .error e
  | .ok (app2, ds) => .ok (app2, .comp ds.reverse)

end Application

/-! ### Concrete instances used by the witnesses -/

/-- A host that reports `sys.platform = "linux"`, `os.name =
"posix"`. -/
def platW : Platform := ⟨"linux", "posix"⟩

/-- A sample action with one menu rule and one keybinding rule. -/
def actW1 : Action :=
  { id := "a1", menus := [⟨"file", some "1_grp", some 1, none⟩],
    keybindings := [⟨"Ctrl+A", none⟩] }

/-- A sample command-only action. -/
def actW2 : Action := { id := "a2" }

/-- A sample action with one menu rule. -/
def actW3 : Action := { id := "a3", menus := [⟨"edit", none, none, none⟩] }

/-- A freshly constructed application with empty registries. -/
def appW : App := ⟨0, "x", [], RegState.empty, []⟩

/-- The composite undo produced by registering `actW1`. -/
def undoW1 : UndoCb :=
  .comp [.removeCmd "a1", .removeMenus [⟨"file", "a1", some "1_grp", some 1, none⟩],
    .removeKbs [⟨"Ctrl+A", "a1", none⟩]]

/-- The composite undo produced by registering `actW3`. -/
def undoW3 : UndoCb :=
  .comp [.removeCmd "a3", .removeMenus [⟨"edit", "a3", none, none, none⟩],
    .removeKbs []]

/-- An action with a fresh command id, a valid menu rule, and a
keybinding rule whose "when" clause `"("` is malformed (unbalanced
parenthesis): registering it fails only after the command and menu
steps have already mutated their registries. -/
def actBad : Action :=
  { id := "b1", menus := [⟨"files", none, none, none⟩],
    keybindings := [⟨"Ctrl+B", some "("⟩] }

/-- `appW` after registering `actW1`. -/
def appW1 : App :=
  { appId := 0, name := "x", ctx := [],
    regs := ⟨["a1"], [⟨"file", "a1", some "1_grp", some 1, none⟩],
      [⟨"Ctrl+A", "a1", none⟩]⟩,
    disposers := [("a1", undoW1)] }

/-- An application that registered `actW1`, `actW2`, `actW3` (in that
order) and whose middle undo callback was replaced by one that raises
an exception. -/
def appT : App :=
  { appId := 0, name := "x", ctx := [],
    regs := ⟨["a1", "a2", "a3"],
      [⟨"file", "a1", some "1_grp", some 1, none⟩, ⟨"edit", "a3", none, none, none⟩],
      [⟨"Ctrl+A", "a1", none⟩]⟩,
    disposers := [("a1", undoW1), ("boom", .raises), ("a3", undoW3)] }

/-- The empty process-wide state. -/
def gEmpty : Global := ⟨[], [], 0⟩

/-- The application produced by constructing `Application "x"` on a
linux host with an empty `app_model_context()`. -/
def appInitX : App :=
  { appId := 0, name := "x",
    ctx := [("is_linux", .b true), ("is_mac", .b false),
      ("is_windows", .b false)],
    regs := RegState.empty, disposers := [] }

/-- The process-wide state after that construction. -/
def gX : Global :=
  ⟨[("x", .ok appInitX)], ["x"], 1⟩

/-- The application `Application.__init__` constructs for `name` with
all keyword arguments at their defaults (`context=None`): identity
`idn`, a context holding `app_model_context()` plus the three OS
flags, empty registries and an empty disposer stack. -/
def freshApp (name : String) (plat : Platform) (amc : Ctx)
    (idn : Nat) : App :=
  { appId := idn, name := name,
    ctx := ctxSet (ctxSet (ctxSet (ctxUpdate [] amc)
        "is_linux" (.b (strStartsWith plat.sysPlatform "linux")))
        "is_mac" (.b (plat.sysPlatform == "darwin")))
        "is_windows" (.b (plat.osName == "nt")),
    regs := RegState.empty, disposers := [] }

/-- The composite undo produced by registering `actW2`. -/
def undoW2 : UndoCb :=
  .comp [.removeCmd "a2", .removeMenus [], .removeKbs []]

/-- `appW` after registering `actW1` then `actW2`. -/
def appW12 : App :=
  { appId := 0, name := "x", ctx := [],
    regs := ⟨["a1", "a2"], [⟨"file", "a1", some "1_grp", some 1, none⟩],
      [⟨"Ctrl+A", "a1", none⟩]⟩,
    disposers := [("a1", undoW1), ("a2", undoW2)] }

/-- An application named `"y"` holding one tracked registration, owned
by `gC6`. -/
def appC6 : App :=
  { appId := 0, name := "y", ctx := [],
    regs := ⟨["a1"], [], []⟩,
    disposers := [("a1", .removeCmd "a1")] }

/-- A process-wide state owning `appC6` under `"y"`. -/
def gC6 : Global := ⟨[("y", .ok appC6)], ["y"], 1⟩

/-! ### Helper lemmas -/

theorem eraseLastOcc_concat {α : Type} [DecidableEq α] (l : List α) (a : α) :
    eraseLastOcc (l ++ [a]) a = l := by
  unfold eraseLastOcc
  rw [List.reverse_concat, List.erase_cons_head, List.reverse_reverse]

theorem removeItems_append_self {α : Type} [DecidableEq α]
    (items l : List α) : removeItems (l ++ items) items = l := by
  induction items using List.reverseRecOn generalizing l with
  | nil => simp [removeItems]
  | append_singleton is0 a ih =>
      unfold removeItems
      rw [List.reverse_concat, List.foldl_cons, ← List.append_assoc,
        eraseLastOcc_concat]
      exact ih l

theorem runUndo_comp (cbs : List UndoCb) (s : RegState) :
    runUndo (UndoCb.comp cbs) s = runUndoSeq cbs s := by
  induction cbs generalizing s with
  | nil => rfl
  | cons c cs ih =>
      show runUndo (UndoCb.andThen c (UndoCb.comp cs)) s = _
      rw [runUndo, runUndoSeq]
      cases h : runUndo c s with
      | mk s2 raised => cases raised <;> simp [ih]

theorem runUndoSeq_append (xs ys : List UndoCb) (s : RegState) :
    runUndoSeq (xs ++ ys) s =
      match runUndoSeq xs s with
      | (s2, true) => (s2, true)
      | (s2, false) => runUndoSeq ys s2 := by
  induction xs generalizing s with
  | nil => simp [runUndoSeq]
  | cons c cs ih =>
      rw [List.cons_append, runUndoSeq, runUndoSeq]
      cases h : runUndo c s with
      | mk s2 raised => cases raised <;> simp [ih]

theorem runSuppressed_append (xs ys : List UndoCb) (s : RegState) :
    runSuppressed (xs ++ ys) s = runSuppressed ys (runSuppressed xs s) := by
  induction xs generalizing s with
  | nil => rfl
  | cons c cs ih => rw [List.cons_append, runSuppressed, runSuppressed, ih]

theorem disposeLoop_eq_runSuppressed (ds : List (String × UndoCb))
    (s : RegState) :
    Application.disposeLoop ds s =
      runSuppressed (ds.reverse.map Prod.snd) s := by
  induction ds using List.reverseRecOn generalizing s with
  | nil => rw [Application.disposeLoop]; rfl
  | append_singleton l kv ih =>
      rw [Application.disposeLoop]
      split
      · next heq => rw [List.getLast?_concat] at heq; cases heq
      · next fst cb heq =>
          rw [List.getLast?_concat] at heq
          injection heq with heq
          subst heq
          rw [List.dropLast_concat, List.reverse_concat, List.map_cons,
            runSuppressed]
          exact ih _

theorem registerCommand_ok {id : String} {s s1 : RegState} {u1 : UndoCb}
    (h : registerCommand id s = .ok (s1, u1)) :
    id ∉ s.commands ∧ s1 = { s with commands := s.commands ++ [id] } ∧
      u1 = .removeCmd id := by
  unfold registerCommand at h
  by_cases hmem : id ∈ s.commands
  · rw [if_pos hmem] at h; cases h
  · rw [if_neg hmem] at h
    simp only [Except.ok.injEq, Prod.mk.injEq] at h
    exact ⟨hmem, h.1.symm, h.2.symm⟩

theorem registerCommand_error {id : String} {s s2 : RegState} {e : RegErr}
    (h : registerCommand id s = .error (e, s2)) : s2 = s := by
  unfold registerCommand at h
  by_cases hmem : id ∈ s.commands
  · rw [if_pos hmem] at h
    simp only [Except.error.injEq, Prod.mk.injEq] at h
    exact h.2.symm
  · rw [if_neg hmem] at h; cases h

theorem appendMenuItems_ok {items : List MenuEntry} {s s2 : RegState}
    {u2 : UndoCb} (h : appendMenuItems items s = .ok (s2, u2)) :
    s2 = { s with menus := s.menus ++ items } ∧
      u2 = .removeMenus items := by
  unfold appendMenuItems at h
  cases hf : items.find? (fun it => badWhen it.whenExpr) with
  | some it => rw [hf] at h; cases h
  | none =>
      rw [hf] at h
      simp only [Except.ok.injEq, Prod.mk.injEq] at h
      exact ⟨h.1.symm, h.2.symm⟩

theorem appendMenuItems_error {items : List MenuEntry} {s s2 : RegState}
    {e : RegErr} (h : appendMenuItems items s = .error (e, s2)) :
    s2 = s := by
  unfold appendMenuItems at h
  cases hf : items.find? (fun it => badWhen it.whenExpr) with
  | some it =>
      rw [hf] at h
      simp only [Except.error.injEq, Prod.mk.injEq] at h
      exact h.2.symm
  | none => rw [hf] at h; cases h

theorem registerKeybindings_ok {items : List KBEntry} {s s2 : RegState}
    {u2 : UndoCb} (h : registerKeybindings items s = .ok (s2, u2)) :
    s2 = { s with keybindings := s.keybindings ++ items } ∧
      u2 = .removeKbs items := by
  unfold registerKeybindings at h
  cases hf : items.find? (fun it => badWhen it.whenExpr) with
  | some it => rw [hf] at h; cases h
  | none =>
      rw [hf] at h
      simp only [Except.ok.injEq, Prod.mk.injEq] at h
      exact ⟨h.1.symm, h.2.symm⟩

theorem registerKeybindings_error {items : List KBEntry} {s s2 : RegState}
    {e : RegErr} (h : registerKeybindings items s = .error (e, s2)) :
    s2 = s := by
  unfold registerKeybindings at h
  cases hf : items.find? (fun it => badWhen it.whenExpr) with
  | some it =>
      rw [hf] at h
      simp only [Except.error.injEq, Prod.mk.injEq] at h
      exact h.2.symm
  | none => rw [hf] at h; cases h

theorem registerActionRegs_ok {a : Action} {s s3 : RegState} {u : UndoCb}
    (h : registerActionRegs a s = .ok (s3, u)) :
    a.id ∉ s.commands ∧
    u = UndoCb.comp [.removeCmd a.id, .removeMenus a.menuEntries,
      .removeKbs a.kbEntries] ∧
    s3 = { commands := s.commands ++ [a.id],
           menus := s.menus ++ a.menuEntries,
           keybindings := s.keybindings ++ a.kbEntries } := by
  unfold registerActionRegs at h
  split at h
  · cases h
  · rename_i s1 u1 heq1
    split at h
    · cases h
    · rename_i s2 u2 heq2
      split at h
      · cases h
      · rename_i s3b u3 heq3
        obtain ⟨hmem, hs1, hu1⟩ := registerCommand_ok heq1
        obtain ⟨hs2, hu2⟩ := appendMenuItems_ok heq2
        obtain ⟨hs3, hu3⟩ := registerKeybindings_ok heq3
        simp only [Except.ok.injEq, Prod.mk.injEq] at h
        obtain ⟨hA, hB⟩ := h
        subst hu1 hu2 hu3 hs1 hs2 hs3
        exact ⟨hmem, hB.symm, hA.symm⟩

theorem registerActionRegs_error {a : Action} {s s2 : RegState}
    {e : RegErr} (h : registerActionRegs a s = .error (e, s2)) :
    s2 = s := by
  unfold registerActionRegs at h
  split at h
  · rename_i e1 sE heq1
    simp only [Except.error.injEq, Prod.mk.injEq] at h
    exact h.2 ▸ registerCommand_error heq1
  · rename_i s1 u1 heq1
    obtain ⟨hmem, hs1, hu1⟩ := registerCommand_ok heq1
    split at h
    · rename_i e2 sE heq2
      simp only [Except.error.injEq, Prod.mk.injEq] at h
      obtain ⟨-, hrb⟩ := h
      have hsE : sE = s1 := appendMenuItems_error heq2
      subst hsE hu1 hs1
      rw [← hrb]
      simp [runUndoSeq, runUndo, eraseLastOcc_concat]
    · rename_i s2b u2 heq2
      obtain ⟨hs2, hu2⟩ := appendMenuItems_ok heq2
      split at h
      · rename_i e3 sE heq3
        simp only [Except.error.injEq, Prod.mk.injEq] at h
        obtain ⟨-, hrb⟩ := h
        have hsE : sE = s2b := registerKeybindings_error heq3
        subst hsE hu2 hs2 hu1 hs1
        rw [← hrb]
        simp [runUndoSeq, runUndo, removeItems_append_self,
          eraseLastOcc_concat]
      · cases h

theorem register_action_ok {a : Action} {app app2 : App} {u : UndoCb}
    (h : Application.register_action a app = .ok (app2, u)) :
    a.id ∉ app.regs.commands ∧
    u = UndoCb.comp [.removeCmd a.id, .removeMenus a.menuEntries,
      .removeKbs a.kbEntries] ∧
    app2 = { app with
      regs := { commands := app.regs.commands ++ [a.id],
                menus := app.regs.menus ++ a.menuEntries,
                keybindings := app.regs.keybindings ++ a.kbEntries },
      disposers := app.disposers ++ [(a.id, u)] } := by
  unfold Application.register_action at h
  split at h
  · cases h
  · rename_i sr ur heq
    obtain ⟨hmem, hu, hs⟩ := registerActionRegs_ok heq
    simp only [Except.ok.injEq, Prod.mk.injEq] at h
    obtain ⟨hA, hB⟩ := h
    subst hB hu hs
    exact ⟨hmem, rfl, hA.symm⟩

theorem register_action_roundtrip {a : Action} {app app2 : App} {u : UndoCb}
    (h : Application.register_action a app = .ok (app2, u)) :
    runUndo u app2.regs = (app.regs, false) := by
  obtain ⟨-, hu, happ⟩ := register_action_ok h
  subst hu happ
  rw [runUndo_comp]
  simp only [runUndoSeq, runUndo, eraseLastOcc_concat, removeItems_append_self]

theorem registerActionsGo_spec {acts : List Action} {app app2 : App}
    {ds0 ds : List UndoCb}
    (h : Application.registerActionsGo acts app ds0 = .ok (app2, ds)) :
    ∃ newDs, ds = ds0 ++ newDs ∧
      runUndoSeq newDs.reverse app2.regs = (app.regs, false) ∧
      app2.regs.commands = app.regs.commands ++ acts.map Action.id ∧
      app2.regs.menus = app.regs.menus ++ (acts.map Action.menuEntries).flatten ∧
      app2.regs.keybindings =
        app.regs.keybindings ++ (acts.map Action.kbEntries).flatten := by
  induction acts generalizing app ds0 with
  | nil =>
      rw [Application.registerActionsGo] at h
      cases h
      exact ⟨[], by simp, rfl, by simp, by simp, by simp⟩
  | cons a rest ih =>
      rw [Application.registerActionsGo] at h
      cases hreg : Application.register_action a app with
      | error e => rw [hreg] at h; cases h
      | ok out =>
          obtain ⟨app1, u⟩ := out
          rw [hreg] at h
          obtain ⟨new1, hds, hrun, hc, hm, hk⟩ := ih h
          obtain ⟨-, -, happ1⟩ := register_action_ok hreg
          refine ⟨u :: new1, by simpa using hds, ?_, ?_, ?_, ?_⟩
          · rw [List.reverse_cons, runUndoSeq_append, hrun]
            have hu : runUndo u app1.regs = (app.regs, false) :=
              register_action_roundtrip hreg
            simp [runUndoSeq, hu]
          · rw [hc, happ1]; simp
          · rw [hm, happ1]; simp
          · rw [hk, happ1]; simp

theorem lookupInst_append_self {g : Global} {name : String} {inst : Inst}
    (h : lookupInst g name = none) (l2 : List (String × Inst))
    (stores2 : List String) (n2 : Nat) :
    lookupInst ⟨g.instances ++ (name, inst) :: l2, stores2, n2⟩ name =
      some inst := by
  unfold lookupInst at h ⊢
  rw [List.find?_append]
  cases hfind : g.instances.find? (fun kv => kv.1 = name) with
  | some kv => rw [hfind] at h; cases h
  | none => simp

theorem lookupInst_removeInst (l : List (String × Inst)) (name : String)
    (stores2 : List String) (n2 : Nat) :
    lookupInst ⟨removeInst l name, stores2, n2⟩ name = none := by
  unfold lookupInst removeInst
  cases hfind : (l.filter (fun kv => kv.1 ≠ name)).find?
      (fun kv => kv.1 = name) with
  | none => simp
  | some kv =>
      have := List.find?_some hfind
      have hmem := List.mem_filter.mp (List.mem_of_find?_eq_some hfind)
      simp only [decide_eq_true_eq] at this
      simp only [ne_eq, decide_not, Bool.not_eq_eq_eq_not, Bool.not_true,
        decide_eq_false_iff_not] at hmem
      exact absurd this hmem.2

theorem ctxGet_ctxSet_same (c : Ctx) (k : String) (v : CtxVal) :
    ctxGet (ctxSet c k v) k = some v := by
  induction c with
  | nil => simp [ctxSet, ctxGet]
  | cons kv rest ih =>
      obtain ⟨k2, v2⟩ := kv
      by_cases hk : k2 = k
      · subst hk; simp [ctxSet, ctxGet]
      · simp [ctxSet, ctxGet, hk, ih]

theorem ctxGet_ctxSet_ne (c : Ctx) {k k2 : String} (v : CtxVal)
    (hne : k2 ≠ k) : ctxGet (ctxSet c k2 v) k = ctxGet c k := by
  induction c with
  | nil => simp [ctxSet, ctxGet, hne]
  | cons kv rest ih =>
      obtain ⟨k3, v3⟩ := kv
      by_cases hk : k3 = k2
      · subst hk; simp [ctxSet, ctxGet, hne]
      · simp [ctxSet, ctxGet, hk, ih]

/-! ### Claim theorems -/

/-- Claim C1: for every Action `A`, calling
`Application.register_action A` and then invoking the undo callable it
returns leaves the Commands, Menus and KeyBindings registries
observably identical (same id-sets and same ordering, i.e. the same
`RegState`) to their state before the registration, and the undo does
not raise. -/
theorem register_action_undo_roundtrip (a : Action) (app app2 : App)
    (u : UndoCb)
    (h : Application.register_action a app = .ok (app2, u)) :
    runUndo u app2.regs = (app.regs, false) :=
  register_action_roundtrip h

/-- Witness for C1: registering the concrete action `actW1` on the
fresh application `appW` and running the returned undo restores the
registries exactly. -/
theorem register_action_undo_roundtrip_witness :
    Application.register_action actW1 appW = .ok (appW1, undoW1) ∧
    runUndo undoW1 appW1.regs = (appW.regs, false) :=
  ⟨by decide,
   register_action_undo_roundtrip actW1 appW appW1 undoW1 (by decide)⟩

/-- Claim C3: if, during `Application.register_action`, registration
into any one of the three registries fails — `DuplicateIdError` from
the commands registry, or a `ParseError` from the menus or keybindings
step after earlier steps have already registered their entries — then
everything already registered for that action is rolled back (the
collected undos are replayed), so the application state accompanying
the raised error (its three registries and its disposer stack) is
unchanged from the state before the call. -/
theorem register_action_failure_atomic (a : Action) (app app2 : App)
    (e : RegErr)
    (h : Application.register_action a app = .error (e, app2)) :
    app2 = app := by
  unfold Application.register_action at h
  split at h
  · rename_i eB sE heq
    simp only [Except.error.injEq, Prod.mk.injEq] at h
    obtain ⟨-, happ⟩ := h
    have hs : sE = app.regs := registerActionRegs_error heq
    subst hs
    rw [← happ]
  · cases h

/-- Witness for C3: registering `actBad` — a fresh command id with a
valid menu rule but a keybinding rule whose "when" clause is the
malformed `"("` — fails with `ParseError` only after the command and
menu registrations have mutated their registries (the command step
alone succeeds on this state, as the first conjunct shows), and the
rollback leaves the application exactly as it was. -/
theorem register_action_failure_atomic_witness :
    registerCommand actBad.id appW1.regs =
      .ok ({ appW1.regs with
        commands := appW1.regs.commands ++ ["b1"] }, .removeCmd "b1") ∧
    Application.register_action actBad appW1 =
      .error (.parseError "(", appW1) ∧
    appW1 = appW1 :=
  ⟨by decide, by decide,
   register_action_failure_atomic actBad appW1 appW1
     (.parseError "(") (by decide)⟩

/-- Claim C2: `Application.dispose` pops and invokes every tracked
undo callback in LIFO order (reverse of registration order), and a
callback that raises does not prevent any of the remaining callbacks
from being invoked: a raising callback can be dropped from the stack
without changing the resulting registries, the callbacks after it (run
first) and before it (run last) all still being applied. -/
theorem dispose_lifo_isolates_failures (app : App)
    (pre post : List (String × UndoCb)) (lbl : String)
    (h : app.disposers = pre ++ [(lbl, UndoCb.raises)] ++ post) :
    (Application.dispose app).disposers = [] ∧
    (Application.dispose app).regs =
      runSuppressed ((post.reverse ++ pre.reverse).map Prod.snd)
        app.regs := by
  constructor
  · rfl
  · show Application.disposeLoop app.disposers app.regs = _
    rw [disposeLoop_eq_runSuppressed, h]
    simp only [List.reverse_append, List.reverse_cons, List.reverse_nil,
      List.nil_append, List.map_append, List.map_cons, List.map_nil,
      List.append_assoc, List.cons_append]
    rw [runSuppressed_append, runSuppressed_append]
    rfl

/-- Witness for C2: disposing an application holding three tracked
registrations whose middle undo callback raises still removes the
first and third actions' registrations; only the middle action's
entries survive. -/
theorem dispose_lifo_isolates_failures_witness :
    appT.disposers =
      [("a1", undoW1)] ++ [("boom", UndoCb.raises)] ++ [("a3", undoW3)] ∧
    (Application.dispose appT).disposers = [] ∧
    (Application.dispose appT).regs = ⟨["a2"], [], []⟩ :=
  ⟨by decide,
   (dispose_lifo_isolates_failures appT [("a1", undoW1)] [("a3", undoW3)]
     "boom" (by decide)).1,
   Eq.trans
     (dispose_lifo_isolates_failures appT [("a1", undoW1)] [("a3", undoW3)]
       "boom" (by decide)).2
     (by decide)⟩

/-- Claim C4: constructing an `Application` with a name already
present in the process-wide instance mapping raises `ValueError`
immediately (leaving the mapping untouched), and a successful
construction appends the new instance to the mapping under its
name. -/
theorem init_duplicate_raises_success_registers (name : String)
    (g : Global) (ctxArg : CtxArg) (plat : Platform) (amc : Ctx) :
    ((lookupInst g name).isSome →
      Application.init name ctxArg plat amc g =
        (g, .error .duplicateName)) ∧
    (∀ g2 a, Application.init name ctxArg plat amc g = (g2, .ok a) →
      a.name = name ∧ g2.instances = g.instances ++ [(name, .ok a)]) := by
  constructor
  · intro hsome
    unfold Application.init
    rw [if_pos hsome]
  · intro g2 a h2
    unfold Application.init at h2
    cases h3 : (lookupInst g name).isSome with
    | true => rw [h3] at h2; simp at h2
    | false =>
        rw [h3] at h2
        cases ctxArg with
        | invalid => simp at h2
        | noCtx =>
            simp only [Bool.false_eq_true, if_false, Prod.mk.injEq,
              Except.ok.injEq] at h2
            obtain ⟨hg2, ha⟩ := h2
            subst hg2; subst ha
            exact ⟨rfl, rfl⟩
        | ctx c =>
            simp only [Bool.false_eq_true, if_false, Prod.mk.injEq,
              Except.ok.injEq] at h2
            obtain ⟨hg2, ha⟩ := h2
            subst hg2; subst ha
            exact ⟨rfl, rfl⟩
        | mapping m =>
            simp only [Bool.false_eq_true, if_false, Prod.mk.injEq,
              Except.ok.injEq] at h2
            obtain ⟨hg2, ha⟩ := h2
            subst hg2; subst ha
            exact ⟨rfl, rfl⟩

/-- Witness for C4: constructing `"x"` over an empty mapping appends
it; constructing `"x"` again over the resulting mapping raises the
duplicate-name error and changes nothing. -/
theorem init_duplicate_raises_success_registers_witness :
    (Application.init "x" .noCtx platW [] gX =
      (gX, .error .duplicateName)) ∧
    (appInitX.name = "x" ∧
      gX.instances = gEmpty.instances ++ [("x", .ok appInitX)]) :=
  ⟨(init_duplicate_raises_success_registers "x" gX .noCtx platW []).1
     (by decide),
   (init_duplicate_raises_success_registers "x" gEmpty .noCtx platW []).2
     gX appInitX (by decide)⟩

/-- Claim C5: `Application.get_or_create n` called twice with no
intervening `destroy n` returns the same `Application` instance both
times (and the second call leaves the process-wide state unchanged). -/
theorem get_or_create_idempotent (name : String) (plat : Platform)
    (amc : Ctx) (g : Global) :
    Application.get_or_create name plat amc
        (Application.get_or_create name plat amc g).1 =
      Application.get_or_create name plat amc g := by
  unfold Application.get_or_create
  cases hl : lookupInst g name with
  | some inst => simp [hl]
  | none =>
      simp only [hl]
      unfold Application.init
      rw [hl]
      simp only [Option.isSome_none, Bool.false_eq_true, if_false]
      rw [lookupInst_append_self hl]
      rfl

/-- Claim C7: `Application.destroy name` with a name not present in
the process-wide instance mapping is a no-op: no error, no `destroyed`
notification, no popped instance, and the process-wide state is
unchanged. -/
theorem destroy_unknown_noop (name : String) (g : Global)
    (h : lookupInst g name = none) :
    Application.destroy name g = (g, [], none) := by
  unfold Application.destroy
  rw [h]

/-- Witness for C7: destroying the unknown name `"ghost"` leaves the
one-application state `gX` untouched and emits nothing. -/
theorem destroy_unknown_noop_witness :
    Application.destroy "ghost" gX = (gX, [], none) :=
  destroy_unknown_noop "ghost" gX (by decide)

/-- Claim C8: `Application.register_actions` registers every action of
the iterable, in order (each action's command id, menu items and
keybinding entries are appended to the respective registries in
iteration order), and returns a single undo callable that, when
invoked, undoes all of those registrations — running the per-action
undos in reverse order of registration — restoring all three
registries exactly. -/
theorem register_actions_batch_undo (acts : List Action)
    (app app2 : App) (u : UndoCb)
    (h : Application.register_actions acts app = .ok (app2, u)) :
    app2.regs.commands = app.regs.commands ++ acts.map Action.id ∧
    app2.regs.menus =
      app.regs.menus ++ (acts.map Action.menuEntries).flatten ∧
    app2.regs.keybindings =
      app.regs.keybindings ++ (acts.map Action.kbEntries).flatten ∧
    runUndo u app2.regs = (app.regs, false) := by
  unfold Application.register_actions at h
  cases hgo : Application.registerActionsGo acts app [] with
  | error e => rw [hgo] at h; cases h
  | ok out =>
      obtain ⟨app3, ds⟩ := out
      rw [hgo] at h
      simp only [Except.ok.injEq, Prod.mk.injEq] at h
      obtain ⟨h4, h5⟩ := h
      subst h4; subst h5
      obtain ⟨newDs, hds, hrun, hc, hm, hk⟩ := registerActionsGo_spec hgo
      rw [List.nil_append] at hds
      subst hds
      refine ⟨hc, hm, hk, ?_⟩
      rw [runUndo_comp]
      exact hrun

/-- Witness for C8: batch-registering `[actW1, actW2]` on the fresh
application `appW` appends both registrations in order, and the
returned composite undo (running the two per-action undos in reverse
order) restores the registries. -/
theorem register_actions_batch_undo_witness :
    Application.register_actions [actW1, actW2] appW =
      .ok (appW12, UndoCb.comp [undoW2, undoW1]) ∧
    (appW12.regs.commands =
        appW.regs.commands ++ [actW1, actW2].map Action.id ∧
      appW12.regs.menus = appW.regs.menus ++
        ([actW1, actW2].map Action.menuEntries).flatten ∧
      appW12.regs.keybindings = appW.regs.keybindings ++
        ([actW1, actW2].map Action.kbEntries).flatten ∧
      runUndo (UndoCb.comp [undoW2, undoW1]) appW12.regs =
        (appW.regs, false)) :=
  ⟨by decide,
   register_actions_batch_undo [actW1, actW2] appW appW12
     (UndoCb.comp [undoW2, undoW1]) (by decide)⟩

theorem ctxGet_os_flags (c1 : Ctx) (v1 v2 v3 : CtxVal) :
    ctxGet (ctxSet (ctxSet (ctxSet c1 "is_linux" v1) "is_mac" v2)
        "is_windows" v3) "is_linux" = some v1 ∧
    ctxGet (ctxSet (ctxSet (ctxSet c1 "is_linux" v1) "is_mac" v2)
        "is_windows" v3) "is_mac" = some v2 ∧
    ctxGet (ctxSet (ctxSet (ctxSet c1 "is_linux" v1) "is_mac" v2)
        "is_windows" v3) "is_windows" = some v3 := by
  refine ⟨?_, ?_, ?_⟩
  · rw [ctxGet_ctxSet_ne _ _ (by decide), ctxGet_ctxSet_ne _ _ (by decide),
      ctxGet_ctxSet_same]
  · rw [ctxGet_ctxSet_ne _ _ (by decide), ctxGet_ctxSet_same]
  · rw [ctxGet_ctxSet_same]

/-- Claim C9: a successful `Application.__init__` inspects the OS
family flags and writes them into the application's context under the
boolean keys `is_linux`, `is_mac` and `is_windows`, so that after
construction the context contains all three keys (with the values
derived from `sys.platform` / `os.name`, overriding any binding the
supplied context or `app_model_context()` had for them). -/
theorem init_sets_os_flags (name : String) (ctxArg : CtxArg)
    (plat : Platform) (amc : Ctx) (g g2 : Global) (a : App)
    (h : Application.init name ctxArg plat amc g = (g2, .ok a)) :
    ctxGet a.ctx "is_linux" =
      some (.b (strStartsWith plat.sysPlatform "linux")) ∧
    ctxGet a.ctx "is_mac" = some (.b (plat.sysPlatform == "darwin")) ∧
    ctxGet a.ctx "is_windows" = some (.b (plat.osName == "nt")) := by
  unfold Application.init at h
  cases h3 : (lookupInst g name).isSome with
  | true => rw [h3] at h; simp at h
  | false =>
      rw [h3] at h
      cases ctxArg with
      | invalid => simp at h
      | noCtx =>
          simp only [Bool.false_eq_true, if_false, Prod.mk.injEq,
            Except.ok.injEq] at h
          obtain ⟨-, ha⟩ := h
          subst ha
          exact ctxGet_os_flags _ _ _ _
      | ctx c =>
          simp only [Bool.false_eq_true, if_false, Prod.mk.injEq,
            Except.ok.injEq] at h
          obtain ⟨-, ha⟩ := h
          subst ha
          exact ctxGet_os_flags _ _ _ _
      | mapping m =>
          simp only [Bool.false_eq_true, if_false, Prod.mk.injEq,
            Except.ok.injEq] at h
          obtain ⟨-, ha⟩ := h
          subst ha
          exact ctxGet_os_flags _ _ _ _

/-- Witness for C9: constructing `"x"` on a linux host stores
`is_linux = true`, `is_mac = false`, `is_windows = false` in the
context. -/
theorem init_sets_os_flags_witness :
    ctxGet appInitX.ctx "is_linux" =
      some (.b (strStartsWith platW.sysPlatform "linux")) ∧
    ctxGet appInitX.ctx "is_mac" =
      some (.b (platW.sysPlatform == "darwin")) ∧
    ctxGet appInitX.ctx "is_windows" =
      some (.b (platW.osName == "nt")) :=
  init_sets_os_flags "x" .noCtx platW [] gEmpty gX appInitX (by decide)

/-- Claim C10: calling `Application.__init__` with a `context`
argument that is neither `None`, a `Context`, nor a `MutableMapping`
raises `TypeError`, but the name was recorded in the process-wide
instance mapping before that check, so the failed construction leaves
the name occupied by the partially constructed instance: any
subsequent construction attempt under the same name raises the
duplicate-name error even though no usable `Application` exists under
that name. -/
theorem init_invalid_context_leaks_name (name : String)
    (plat : Platform) (amc : Ctx) (g : Global) (ctxArg2 : CtxArg)
    (plat2 : Platform) (amc2 : Ctx)
    (h : lookupInst g name = none) :
    (Application.init name .invalid plat amc g).2 =
      .error .typeError ∧
    (Application.init name .invalid plat amc g).1.instances =
      g.instances ++ [(name, .broken name)] ∧
    lookupInst (Application.init name .invalid plat amc g).1 name =
      some (.broken name) ∧
    Application.init name ctxArg2 plat2 amc2
        (Application.init name .invalid plat amc g).1 =
      ((Application.init name .invalid plat amc g).1,
        .error .duplicateName) := by
  have hfirst : Application.init name .invalid plat amc g =
      ({ g with instances := g.instances ++ [(name, .broken name)] },
        .error .typeError) := by
    unfold Application.init
    rw [h]
    rfl
  have hlook : lookupInst
      { g with instances := g.instances ++ [(name, .broken name)] }
      name = some (.broken name) :=
    lookupInst_append_self h [] g.stores g.nextId
  refine ⟨by rw [hfirst], by rw [hfirst], by rw [hfirst]; exact hlook, ?_⟩
  rw [hfirst]
  unfold Application.init
  rw [if_pos (by rw [hlook]; rfl)]

/-- Witness for C10: constructing `"x"` with an invalid context over
an empty mapping raises `TypeError` yet records `"x"`, and a second
construction of `"x"` (with a valid default context) raises the
duplicate-name error. -/
theorem init_invalid_context_leaks_name_witness :
    (Application.init "x" .invalid platW [] gEmpty).2 =
      .error .typeError ∧
    (Application.init "x" .invalid platW [] gEmpty).1.instances =
      gEmpty.instances ++ [("x", .broken "x")] ∧
    lookupInst (Application.init "x" .invalid platW [] gEmpty).1 "x" =
      some (.broken "x") ∧
    Application.init "x" .noCtx platW []
        (Application.init "x" .invalid platW [] gEmpty).1 =
      ((Application.init "x" .invalid platW [] gEmpty).1,
        .error .duplicateName) :=
  init_invalid_context_leaks_name "x" platW [] gEmpty .noCtx platW []
    (by decide)

/-- Claim C6: `Application.destroy name` on an existing application
pops it from the process-wide mapping, disposes all tracked
registrations (emptying the disposer stack), tears down the injection
store registered under `name`, and emits one `destroyed` notification
with the app's name; the name no longer resolves, and a subsequent
`get_or_create name` constructs a new, distinct instance (a different
object identity than the destroyed one) with empty registries. -/
theorem destroy_full_teardown (name : String) (g : Global) (app : App)
    (plat : Platform) (amc : Ctx)
    (h : lookupInst g name = some (.ok app))
    (hid : app.appId < g.nextId) :
    (Application.destroy name g).2.1 = [app.name] ∧
    (Application.destroy name g).2.2 =
      some (.ok (Application.dispose app)) ∧
    (Application.dispose app).disposers = [] ∧
    (Application.destroy name g).1.instances =
      removeInst g.instances name ∧
    (Application.destroy name g).1.stores = g.stores.erase name ∧
    lookupInst (Application.destroy name g).1 name = none ∧
    (Application.get_or_create name plat amc
        (Application.destroy name g).1).2 =
      .ok (.ok (freshApp name plat amc g.nextId)) ∧
    (freshApp name plat amc g.nextId).appId ≠ app.appId ∧
    (freshApp name plat amc g.nextId).regs = RegState.empty ∧
    (freshApp name plat amc g.nextId).disposers = [] := by
  have hdes : Application.destroy name g =
      (⟨removeInst g.instances name, g.stores.erase name, g.nextId⟩,
        [app.name], some (.ok (Application.dispose app))) := by
    unfold Application.destroy
    rw [h]
  have hlook2 : lookupInst
      (⟨removeInst g.instances name, g.stores.erase name, g.nextId⟩ :
        Global) name = none :=
    lookupInst_removeInst g.instances name _ _
  refine ⟨by rw [hdes], by rw [hdes], rfl, by rw [hdes], by rw [hdes],
    by rw [hdes]; exact hlook2, ?_, fun hc => absurd hc.symm
      (Nat.ne_of_lt hid), rfl, rfl⟩
  rw [hdes]
  unfold Application.get_or_create
  rw [hlook2]
  unfold Application.init
  rw [hlook2]
  rfl

/-- Witness for C6: destroying `"y"` in the one-application state
`gC6` empties its registrations, removes the store, emits the
notification, and a fresh `get_or_create "y"` yields a distinct
application with empty registries. -/
theorem destroy_full_teardown_witness :
    (Application.destroy "y" gC6).2.1 = [appC6.name] ∧
    (Application.destroy "y" gC6).1.instances =
      removeInst gC6.instances "y" ∧
    (Application.destroy "y" gC6).1.stores = gC6.stores.erase "y" ∧
    lookupInst (Application.destroy "y" gC6).1 "y" = none ∧
    (Application.get_or_create "y" platW []
        (Application.destroy "y" gC6).1).2 =
      .ok (.ok (freshApp "y" platW [] gC6.nextId)) ∧
    (freshApp "y" platW [] gC6.nextId).appId ≠ appC6.appId := by
  have hmain := destroy_full_teardown "y" gC6 appC6 platW []
    (by decide) (by decide)
  exact ⟨hmain.1, hmain.2.2.2.1, hmain.2.2.2.2.1, hmain.2.2.2.2.2.1,
    hmain.2.2.2.2.2.2.1, hmain.2.2.2.2.2.2.2.1⟩

end AppModel
